import Mathlib

/-!
Shallow embedding of the request-assembly stage of the pactum spec
execution core (`src/helpers/requestProcessor.js`), together with
models of the external collaborators it uses (Node's legacy
`url.parse`, the `form-data` library) and of the repository modules
that are referenced but whose sources are not available
(`config.js`, `helper.getPlainQuery`, `dataProcessor.js`); the latter
are modelled from the specification and marked as such.

JavaScript objects appearing as string maps are embedded as
association lists in insertion order; `undefined`-able fields are
embedded as `Option`; JavaScript values whose truthiness or `typeof`
matters are embedded as `JSVal`.
-/

namespace Pactum

/-- Model of the JavaScript values that can flow through a request's
`data`/`body` fields: `undefined`, `null`, booleans, (integer)
numbers, strings, plain objects and binary buffers. -/
inductive JSVal where
  | undef
  | null
  | bool (b : Bool)
  | num (n : Int)
  | str (s : String)
  | obj (fields : List (String × JSVal))
  | buf (bytes : List Nat)

/-- JavaScript truthiness of a `JSVal` (`undefined`, `null`, `false`,
`0` and `""` are falsy; objects and buffers are truthy). -/
def truthy : JSVal → Bool
  | .undef => false
  | .null => false
  | .bool b => b
  | .num n => n != 0
  | .str s => s != ""
  | .obj _ => true
  | .buf _ => true

/-- `typeof v === 'number' || typeof v === 'boolean'`. -/
def isNumOrBool : JSVal → Bool
  | .num _ => true
  | .bool _ => true
  | _ => false

/-- JavaScript `toString()` on the scalar values the code stringifies
(numbers and booleans); other values are returned unchanged inside
`str` only where the code calls `toString`. -/
def jsToString : JSVal → String
  | .num n => toString n
  | .bool b => cond b "true" "false"
  | .str s => s
  | _ => ""

/- ### Association-list model of JavaScript string-map objects -/

/-- `k in o` for a JavaScript object embedded as an association list
(own enumerable string keys). -/
def jsHas (l : List (String × String)) (k : String) : Bool :=
  (List.lookup k l).isSome

/-- `o[k] = v` on a JavaScript object: updates the value in place if
the key exists (keeping its position), otherwise appends the key at
the end (insertion order). -/
def jsSet (l : List (String × String)) (k v : String) : List (String × String) :=
  match l with
  | [] => [(k, v)]
  | (k', v') :: rest => if k' = k then (k, v) :: rest else (k', v') :: jsSet rest k v

/-- First-some choice on options (JavaScript-style fallback used to
state header-merge results). -/
def orO (a b : Option String) : Option String :=
  match a with
  | some v => some v
  | none => b

/- ### JavaScript string operations used by the assembly code -/

/-- Model of JavaScript `String.prototype.startsWith`. -/
def jsStartsWith (s pre : String) : Bool :=
  List.isPrefixOf pre.data s.data

/-- Index of the first occurrence of `pat` in a character list (the
string search performed by `String.prototype.replace` with a string
pattern). -/
def findOccL (pat : List Char) : List Char → Option Nat
  | [] => if pat.isEmpty then some 0 else none
  | c :: cs =>
      if List.isPrefixOf pat (c :: cs) then some 0
      else (findOccL pat cs).map (· + 1)

/-- ECMAScript `GetSubstitution` for a string search value: expands the
replacement-string escape sequences `$$` (a dollar sign), `$&` (the
matched substring), `$` followed by a backquote (the portion of the
string before the match) and `$` followed by a single quote (the
portion after the match); any other use of `$` — including `$n`, which
refers to capture groups a string pattern does not have — is copied
literally. -/
def expandDollarL (matched before after : List Char) : List Char → List Char
  | [] => []
  | c :: rest =>
      if c = '$' then
        match rest with
        | [] => ['$']
        | d :: rest2 =>
            if d = '$' then '$' :: expandDollarL matched before after rest2
            else if d = '&' then matched ++ expandDollarL matched before after rest2
            else if d = Char.ofNat 96 then before ++ expandDollarL matched before after rest2
            else if d = Char.ofNat 39 then after ++ expandDollarL matched before after rest2
            else '$' :: d :: expandDollarL matched before after rest2
      else c :: expandDollarL matched before after rest

/-- Model of JavaScript `String.prototype.replace` with a plain string
pattern, following ECMAScript's algorithm: locate the first occurrence
of `pat` and splice in the replacement string processed by
`GetSubstitution`'s `$`-escapes (`expandDollarL`); with no occurrence
the string is returned unchanged. -/
def replaceFirstL (pat rep s : List Char) : List Char :=
  match findOccL pat s with
  | none => s
  | some i =>
      s.take i ++ expandDollarL pat (s.take i) (s.drop (i + pat.length)) rep
        ++ s.drop (i + pat.length)

/-- String wrapper for `replaceFirstL`. -/
def jsReplaceFirst (s pat rep : String) : String :=
  String.mk (replaceFirstL pat.data rep.data s.data)

/-- Substitution at the first match, written from the specification's
words ("replace the `\x7bname\x7d` token, first match wins"): locate the
first occurrence of `pat` and splice `rep` in its place; if there is
no occurrence the string is returned unchanged. Used as the spec-side
definition of a refinement statement against `jsReplaceFirst`. -/
def substFirstSpecL (pat rep s : List Char) : List Char :=
  match findOccL pat s with
  | none => s
  | some i => s.take i ++ rep ++ s.drop (i + pat.length)

/-- String wrapper for `substFirstSpecL`. -/
def substFirstSpec (s pat rep : String) : String :=
  String.mk (substFirstSpecL pat.data rep.data s.data)

/-- Whether a string contains a given character (stated on the
underlying character list). -/
def hasChar (s : String) (c : Char) : Bool :=
  s.data.any (fun a => a == c)

/- ### Model of Node's legacy `url.parse` (the fields the code uses) -/

/-- The three fields of Node's legacy `url.parse` result that
`requestProcessor.js` reads. Absent components are `null` in
JavaScript, embedded as `none`. -/
structure ParsedUrl where
  protocol : Option String
  host : Option String
  pathname : Option String

/-- A character allowed in a scheme by Node's legacy protocol pattern
`/^[a-z0-9.+-]+:/i`. -/
def isSchemeChar (c : Char) : Bool :=
  c.isAlphanum || c == '+' || c == '-' || c == '.'

/-- Splits a leading `scheme:` off a character list, if present. -/
def splitSchemeL (s : List Char) : Option (List Char × List Char) :=
  let pre := s.takeWhile isSchemeChar
  match s.drop pre.length with
  | ':' :: rest => if pre.isEmpty then none else some (pre, rest)
  | _ => none

/-- A character that does not terminate the pathname component. -/
def notPathEnd (c : Char) : Bool :=
  !(c == '?' || c == '#')

/-- A character that does not terminate the host component. -/
def notHostEnd (c : Char) : Bool :=
  !(c == '/' || c == '?' || c == '#')

/-- The pathname component of the remainder of a URL: the characters
up to `?` or `#`, or `null` when empty. -/
def mkPathname (l : List Char) : Option String :=
  let pathPart := l.takeWhile notPathEnd
  if pathPart.isEmpty then none else some (String.mk pathPart)

/-- Model of Node's legacy `url.parse` restricted to the components the
assembly code reads (`protocol`, `host`, `pathname`): a host is parsed
only after `scheme://` (`slashesDenoteHost` defaults to false, so a
bare `//` does not denote a host); the pathname stops at `?` or `#`
and is `null` when empty. Auth/port splitting and the legacy parser's
percent-escaping of unwise characters are not modelled. -/
def urlParseL (s : List Char) : ParsedUrl :=
  match splitSchemeL s with
  | some (proto, rest) =>
      match rest with
      | '/' :: '/' :: rest2 =>
          let hostPart := rest2.takeWhile notHostEnd
          let after := rest2.drop hostPart.length
          { protocol := some (String.mk (proto.map Char.toLower) ++ ":")
            host := some (String.mk (hostPart.map Char.toLower))
            pathname := mkPathname after }
      | _ =>
          { protocol := some (String.mk (proto.map Char.toLower) ++ ":")
            host := none
            pathname := mkPathname rest }
  | none =>
      { protocol := none
        host := none
        pathname := mkPathname s }

/-- String wrapper for `urlParseL`. -/
def urlParse (s : String) : ParsedUrl :=
  urlParseL s.data

/-- JavaScript template-literal interpolation of a possibly-`null`
string (`null` renders as the four characters `null`). -/
def optToJsStr (o : Option String) : String :=
  match o with
  | some s => s
  | none => "null"

/-- Whether a URL string carries a scheme recognised by the parser. -/
def urlHasScheme (s : String) : Bool :=
  (splitSchemeL s.data).isSome

/-- Spec-side notion of an absolute HTTP URL, written from the
specification's words ("the spec's URL is not already absolute"): a
URL is absolute when it starts with an explicit `http://` or
`https://` origin. Used to compare the specification's base-URL rule
with the code's `startsWith('http')` test. -/
def isAbsoluteUrl (s : String) : Bool :=
  jsStartsWith s "http://" || jsStartsWith s "https://"

/- ### Process-wide configuration and the request record -/

/-- Process-wide request defaults (`config.request`). The config
module itself is not among the available sources; its shape is taken
from the specification's configuration surface: base URL (string,
empty when unconfigured), default headers (mapping), default timeout
(non-negative integer milliseconds, default 3000), default
follow-redirects (boolean). -/
structure Config where
  baseUrl : String
  headers : List (String × String)
  timeout : Nat
  followRedirects : Bool

/-- The specification's default configuration (no base URL, no default
headers, 3000 ms timeout, redirects not followed). -/
def defaultConfig : Config :=
  { baseUrl := "", headers := [], timeout := 3000, followRedirects := false }

/-- Model of the external `form-data` instance stored in
`request._multiPartFormData`: `getBuffer()` yields the serialized
binary payload and `getHeaders()` yields the `content-type` header
carrying the multipart boundary. -/
structure FormDataModel where
  buffer : List Nat
  boundary : String

/-- `form-data`'s `getBuffer()`. -/
def getBuffer (m : FormDataModel) : JSVal :=
  .buf m.buffer

/-- `form-data`'s `getHeaders()`: the derived `content-type` header
with the multipart boundary. -/
def getHeaders (m : FormDataModel) : List (String × String) :=
  [("content-type", "multipart/form-data; boundary=" ++ m.boundary)]

/-- The mutable request object threaded through
`requestProcessor.process`. Fields that may be `undefined` in
JavaScript are `Option`; `multiPartFormData` embeds the source's
`_multiPartFormData`; `path` and `baseUrl` are written during
assembly. -/
structure Request where
  url : String
  pathParams : Option (List (String × String)) := none
  queryParams : Option (List (String × String)) := none
  headers : Option (List (String × String)) := none
  data : JSVal := .undef
  body : JSVal := .undef
  timeout : Option Nat := none
  followRedirects : Option Bool := none
  multiPartFormData : Option FormDataModel := none
  path : Option String := none
  baseUrl : String := ""

/- ### The assembly steps (one definition per source function) -/

/-- `setBaseUrl(request)`: prefix the configured base URL when one is
set and the URL does not start with `http`, then parse the URL and
record `path` (the pathname) and `baseUrl`
(`` `${protocol}//${host}` ``). -/
def setBaseUrl (cfg : Config) (r : Request) : Request :=
  let u := if cfg.baseUrl != "" && !(jsStartsWith r.url "http") then cfg.baseUrl ++ r.url else r.url
  let p := urlParse u
  { r with url := u
           path := p.pathname
           baseUrl := optToJsStr p.protocol ++ "//" ++ optToJsStr p.host }

/-- The URL rewriting performed by `setPathParams`: for each declared
path parameter, in declaration order, replace the first occurrence of
`\x7bname\x7d` in the URL. -/
def setPathParamsStr (ps : List (String × String)) (u : String) : String :=
  ps.foldl (fun u kv => jsReplaceFirst u ("\x7b" ++ kv.1 ++ "\x7d") kv.2) u

/-- `setPathParams(request)`. -/
def setPathParams (r : Request) : Request :=
  match r.pathParams with
  | some ps => { r with url := setPathParamsStr ps r.url }
  | none => r

/-- Joins `k=v` pairs with `&`. -/
def joinQuery : List (String × String) → String
  | [] => ""
  | [kv] => kv.1 ++ "=" ++ kv.2
  | kv :: rest => kv.1 ++ "=" ++ kv.2 ++ "&" ++ joinQuery rest

/-- Modelled from the spec: `helper.getPlainQuery` (the source of
`helper.js` is not available) flattens the accumulated query-parameter
mapping into a canonical `k=v` query string joined by `&`; an absent
or empty mapping yields the empty string. -/
def getPlainQuery (qp : Option (List (String × String))) : String :=
  match qp with
  | none => ""
  | some l => joinQuery l

/-- `setQueryParams(request)`: append the serialized query string with
a `?` when it is non-empty. -/
def setQueryParams (r : Request) : Request :=
  let q := getPlainQuery r.queryParams
  if q != "" then { r with url := r.url ++ "?" ++ q } else r

/-- `setHeaders(request)`: when process-wide default headers exist,
create the header object if needed and add every default whose key is
not already present (`prop in request.headers`), skipping keys the
request already declares. -/
def setHeaders (cfg : Config) (r : Request) : Request :=
  if cfg.headers.length > 0 then
    let hs := match r.headers with
      | some hs => hs
      | none => []
    let merged := cfg.headers.foldl (fun h kv => if jsHas h kv.1 then h else jsSet h kv.1 kv.2) hs
    { r with headers := some merged }
  else r

/-- `setBody(request)`: copy a truthy `data` into `body`, copy a
truthy `body` back into `data`, then stringify `data` when the body is
a number or boolean. -/
def setBody (r : Request) : Request :=
  let r1 := if truthy r.data then { r with body := r.data } else r
  let r2 := if truthy r1.body then { r1 with data := r1.body } else r1
  if isNumOrBool r2.body then { r2 with data := .str (jsToString r2.body) } else r2

/-- `setMultiPartFormData(request)`: when multipart form data was
declared, set `data` to the serialized buffer, install the
multipart-derived headers (overwriting existing keys), and delete the
builder-internal multipart state. -/
def setMultiPartFormData (r : Request) : Request :=
  match r.multiPartFormData with
  | some m =>
      let mh := getHeaders m
      let hs := match r.headers with
        | none => mh
        | some hs0 => mh.foldl (fun h kv => jsSet h kv.1 kv.2) hs0
      { r with data := getBuffer m, headers := some hs, multiPartFormData := none }
  | none => r

/-- `setFollowRedirects(request)`: apply the process default only when
it is truthy and the request's flag is `undefined`. -/
def setFollowRedirects (cfg : Config) (r : Request) : Request :=
  if cfg.followRedirects && r.followRedirects.isNone then
    { r with followRedirects := some cfg.followRedirects }
  else r

/-- JavaScript `a || b` on the request's timeout
(`request.timeout || config.request.timeout`): the default is used
when the field is `undefined` or `0` (both falsy). -/
def jsOrNat (v : Option Nat) (d : Nat) : Nat :=
  match v with
  | some n => if n == 0 then d else n
  | none => d

/-- The Request Assembly pipeline of `requestProcessor.process` after
data resolution: the eight order-sensitive steps applied to the
per-request object. -/
def assemble (cfg : Config) (r : Request) : Request :=
  let r1 := setBaseUrl cfg r
  let r2 := setPathParams r1
  let r3 := setQueryParams r2
  let r4 := setHeaders cfg r3
  let r5 := setBody r4
  let r6 := setMultiPartFormData r5
  let r7 := setFollowRedirects cfg r6
  { r7 with timeout := some (jsOrNat r7.timeout cfg.timeout) }

/- ### Modelled data-resolution stage and the full `process` -/

/-- The template/map store (`stash`): named reusable JSON values. -/
structure Store where
  templates : List (String × JSVal)
  maps : List (String × JSVal)

/-- Modelled from the spec: `dataProcessor.processData` (the source of
`dataProcessor.js` is not available) resolves a value against the
store as a pure function of (store state, input value); modelled here
as top-level template-reference substitution, which suffices for the
frame properties stated below. -/
def processData (store : Store) (v : JSVal) : JSVal :=
  match v with
  | .obj fields =>
      match List.lookup "@DATA:TEMPLATE@" fields with
      | some (.str name) =>
          match List.lookup name store.templates with
          | some t => t
          | none => .obj fields
      | _ => .obj fields
  | w => w

/-- Modelled from the spec: `processor.processData(request)` resolves
the request's payload fields through the Data Resolution Engine and
returns the request. -/
def processDataRequest (store : Store) (r : Request) : Request :=
  { r with data := processData store r.data, body := processData store r.body }

/-- Modelled from the spec: `processor.processMaps()` pre-resolves the
stored data maps against the store. -/
def processMaps (st : Store) : Store :=
  { st with maps := st.maps.map (fun kv => (kv.1, processData st kv.2)) }

/-- Modelled from the spec: `processor.processTemplates()` pre-resolves
the stored data templates against the store. -/
def processTemplates (st : Store) : Store :=
  { st with templates := st.templates.map (fun kv => (kv.1, processData st kv.2)) }

/-- The process-wide state visible to `requestProcessor.process`: the
shared configuration, the template/map store, and the per-request
object. -/
structure SysState where
  config : Config
  store : Store
  request : Request

/-- `requestProcessor.process(request)` as a transformer of the
process-wide state: resolve stored maps and templates, resolve the
request's data, then run the assembly pipeline against the shared
configuration. -/
def process (s : SysState) : SysState :=
  let st1 := processMaps s.store
  let st2 := processTemplates st1
  let r := processDataRequest st2 s.request
  { config := s.config, store := st2, request := assemble s.config r }

/-! ### Field-preservation lemmas for the assembly steps -/

variable (cfg : Config) (r : Request)

@[simp] lemma setBaseUrl_pathParams : (setBaseUrl cfg r).pathParams = r.pathParams := rfl

@[simp] lemma setBaseUrl_queryParams : (setBaseUrl cfg r).queryParams = r.queryParams := rfl

@[simp] lemma setBaseUrl_headers : (setBaseUrl cfg r).headers = r.headers := rfl

@[simp] lemma setBaseUrl_data : (setBaseUrl cfg r).data = r.data := rfl

@[simp] lemma setBaseUrl_body : (setBaseUrl cfg r).body = r.body := rfl

@[simp] lemma setBaseUrl_timeout : (setBaseUrl cfg r).timeout = r.timeout := rfl

@[simp] lemma setBaseUrl_followRedirects : (setBaseUrl cfg r).followRedirects = r.followRedirects := rfl

@[simp] lemma setBaseUrl_mpfd : (setBaseUrl cfg r).multiPartFormData = r.multiPartFormData := rfl

@[simp] lemma setPathParams_queryParams : (setPathParams r).queryParams = r.queryParams := by
  cases h : r.pathParams <;> simp [setPathParams, h]

@[simp] lemma setPathParams_headers : (setPathParams r).headers = r.headers := by
  cases h : r.pathParams <;> simp [setPathParams, h]

@[simp] lemma setPathParams_data : (setPathParams r).data = r.data := by
  cases h : r.pathParams <;> simp [setPathParams, h]

@[simp] lemma setPathParams_body : (setPathParams r).body = r.body := by
  cases h : r.pathParams <;> simp [setPathParams, h]

@[simp] lemma setPathParams_timeout : (setPathParams r).timeout = r.timeout := by
  cases h : r.pathParams <;> simp [setPathParams, h]

@[simp] lemma setPathParams_followRedirects : (setPathParams r).followRedirects = r.followRedirects := by
  cases h : r.pathParams <;> simp [setPathParams, h]

@[simp] lemma setPathParams_mpfd : (setPathParams r).multiPartFormData = r.multiPartFormData := by
  cases h : r.pathParams <;> simp [setPathParams, h]

@[simp] lemma setPathParams_path : (setPathParams r).path = r.path := by
  cases h : r.pathParams <;> simp [setPathParams, h]

@[simp] lemma setPathParams_baseUrl : (setPathParams r).baseUrl = r.baseUrl := by
  cases h : r.pathParams <;> simp [setPathParams, h]

@[simp] lemma setQueryParams_pathParams : (setQueryParams r).pathParams = r.pathParams := by
  simp only [setQueryParams]; split <;> rfl

@[simp] lemma setQueryParams_headers : (setQueryParams r).headers = r.headers := by
  simp only [setQueryParams]; split <;> rfl

@[simp] lemma setQueryParams_data : (setQueryParams r).data = r.data := by
  simp only [setQueryParams]; split <;> rfl

@[simp] lemma setQueryParams_body : (setQueryParams r).body = r.body := by
  simp only [setQueryParams]; split <;> rfl

@[simp] lemma setQueryParams_timeout : (setQueryParams r).timeout = r.timeout := by
  simp only [setQueryParams]; split <;> rfl

@[simp] lemma setQueryParams_followRedirects : (setQueryParams r).followRedirects = r.followRedirects := by
  simp only [setQueryParams]; split <;> rfl

@[simp] lemma setQueryParams_mpfd : (setQueryParams r).multiPartFormData = r.multiPartFormData := by
  simp only [setQueryParams]; split <;> rfl

@[simp] lemma setQueryParams_path : (setQueryParams r).path = r.path := by
  simp only [setQueryParams]; split <;> rfl

@[simp] lemma setQueryParams_baseUrl : (setQueryParams r).baseUrl = r.baseUrl := by
  simp only [setQueryParams]; split <;> rfl

@[simp] lemma setHeaders_url : (setHeaders cfg r).url = r.url := by
  simp only [setHeaders]; split <;> rfl

@[simp] lemma setHeaders_pathParams : (setHeaders cfg r).pathParams = r.pathParams := by
  simp only [setHeaders]; split <;> rfl

@[simp] lemma setHeaders_queryParams : (setHeaders cfg r).queryParams = r.queryParams := by
  simp only [setHeaders]; split <;> rfl

@[simp] lemma setHeaders_data : (setHeaders cfg r).data = r.data := by
  simp only [setHeaders]; split <;> rfl

@[simp] lemma setHeaders_body : (setHeaders cfg r).body = r.body := by
  simp only [setHeaders]; split <;> rfl

@[simp] lemma setHeaders_timeout : (setHeaders cfg r).timeout = r.timeout := by
  simp only [setHeaders]; split <;> rfl

@[simp] lemma setHeaders_followRedirects : (setHeaders cfg r).followRedirects = r.followRedirects := by
  simp only [setHeaders]; split <;> rfl

@[simp] lemma setHeaders_mpfd : (setHeaders cfg r).multiPartFormData = r.multiPartFormData := by
  simp only [setHeaders]; split <;> rfl

@[simp] lemma setHeaders_path : (setHeaders cfg r).path = r.path := by
  simp only [setHeaders]; split <;> rfl

@[simp] lemma setHeaders_baseUrl : (setHeaders cfg r).baseUrl = r.baseUrl := by
  simp only [setHeaders]; split <;> rfl

@[simp] lemma setBody_url : (setBody r).url = r.url := by
  simp [setBody, apply_ite Request.url]

@[simp] lemma setBody_pathParams : (setBody r).pathParams = r.pathParams := by
  simp [setBody, apply_ite Request.pathParams]

@[simp] lemma setBody_queryParams : (setBody r).queryParams = r.queryParams := by
  simp [setBody, apply_ite Request.queryParams]

@[simp] lemma setBody_headers : (setBody r).headers = r.headers := by
  simp [setBody, apply_ite Request.headers]

@[simp] lemma setBody_timeout : (setBody r).timeout = r.timeout := by
  simp [setBody, apply_ite Request.timeout]

@[simp] lemma setBody_followRedirects : (setBody r).followRedirects = r.followRedirects := by
  simp [setBody, apply_ite Request.followRedirects]

@[simp] lemma setBody_mpfd : (setBody r).multiPartFormData = r.multiPartFormData := by
  simp [setBody, apply_ite Request.multiPartFormData]

@[simp] lemma setBody_path : (setBody r).path = r.path := by
  simp [setBody, apply_ite Request.path]

@[simp] lemma setBody_baseUrl : (setBody r).baseUrl = r.baseUrl := by
  simp [setBody, apply_ite Request.baseUrl]

@[simp] lemma setMPFD_url : (setMultiPartFormData r).url = r.url := by
  cases h : r.multiPartFormData <;> simp [setMultiPartFormData, h]

@[simp] lemma setMPFD_pathParams : (setMultiPartFormData r).pathParams = r.pathParams := by
  cases h : r.multiPartFormData <;> simp [setMultiPartFormData, h]

@[simp] lemma setMPFD_queryParams : (setMultiPartFormData r).queryParams = r.queryParams := by
  cases h : r.multiPartFormData <;> simp [setMultiPartFormData, h]

@[simp] lemma setMPFD_body : (setMultiPartFormData r).body = r.body := by
  cases h : r.multiPartFormData <;> simp [setMultiPartFormData, h]

@[simp] lemma setMPFD_timeout : (setMultiPartFormData r).timeout = r.timeout := by
  cases h : r.multiPartFormData <;> simp [setMultiPartFormData, h]

@[simp] lemma setMPFD_followRedirects : (setMultiPartFormData r).followRedirects = r.followRedirects := by
  cases h : r.multiPartFormData <;> simp [setMultiPartFormData, h]

@[simp] lemma setMPFD_path : (setMultiPartFormData r).path = r.path := by
  cases h : r.multiPartFormData <;> simp [setMultiPartFormData, h]

@[simp] lemma setMPFD_baseUrl : (setMultiPartFormData r).baseUrl = r.baseUrl := by
  cases h : r.multiPartFormData <;> simp [setMultiPartFormData, h]

lemma setMPFD_of_none (h : r.multiPartFormData = none) : setMultiPartFormData r = r := by
  simp [setMultiPartFormData, h]

@[simp] lemma setFR_url : (setFollowRedirects cfg r).url = r.url := by
  simp only [setFollowRedirects]; split <;> rfl

@[simp] lemma setFR_pathParams : (setFollowRedirects cfg r).pathParams = r.pathParams := by
  simp only [setFollowRedirects]; split <;> rfl

@[simp] lemma setFR_queryParams : (setFollowRedirects cfg r).queryParams = r.queryParams := by
  simp only [setFollowRedirects]; split <;> rfl

@[simp] lemma setFR_headers : (setFollowRedirects cfg r).headers = r.headers := by
  simp only [setFollowRedirects]; split <;> rfl

@[simp] lemma setFR_data : (setFollowRedirects cfg r).data = r.data := by
  simp only [setFollowRedirects]; split <;> rfl

@[simp] lemma setFR_body : (setFollowRedirects cfg r).body = r.body := by
  simp only [setFollowRedirects]; split <;> rfl

@[simp] lemma setFR_timeout : (setFollowRedirects cfg r).timeout = r.timeout := by
  simp only [setFollowRedirects]; split <;> rfl

@[simp] lemma setFR_mpfd : (setFollowRedirects cfg r).multiPartFormData = r.multiPartFormData := by
  simp only [setFollowRedirects]; split <;> rfl

@[simp] lemma setFR_path : (setFollowRedirects cfg r).path = r.path := by
  simp only [setFollowRedirects]; split <;> rfl

@[simp] lemma setFR_baseUrl : (setFollowRedirects cfg r).baseUrl = r.baseUrl := by
  simp only [setFollowRedirects]; split <;> rfl

/-! ### String and association-list lemmas -/

lemma stringMk_data (s : String) : String.mk s.data = s := by
  cases s
  rfl

lemma expandDollarL_of_no_dollar (matched before after : List Char) :
    ∀ rep : List Char, rep.any (fun a => a == '$') = false →
      expandDollarL matched before after rep = rep := by
  intro rep
  induction rep with
  | nil => intro h; rfl
  | cons c rest ih =>
      intro h
      rw [List.any_cons] at h
      have h1 : (c == '$') = false := by
        cases hb : (c == '$') with
        | false => rfl
        | true => rw [hb] at h; simp at h
      have h2 : rest.any (fun a => a == '$') = false := by
        cases hb : rest.any (fun a => a == '$') with
        | false => rfl
        | true => rw [hb] at h; simp at h
      have hc : ¬ c = '$' := by
        intro hceq
        rw [hceq] at h1
        simp at h1
      rw [expandDollarL.eq_def]
      dsimp only
      rw [if_neg hc, ih h2]

lemma replaceFirstL_eq_subst (pat rep s : List Char)
    (h : rep.any (fun a => a == '$') = false) :
    replaceFirstL pat rep s = substFirstSpecL pat rep s := by
  cases hocc : findOccL pat s with
  | none => simp [replaceFirstL, substFirstSpecL, hocc]
  | some i =>
      simp [replaceFirstL, substFirstSpecL, hocc,
        expandDollarL_of_no_dollar pat (s.take i) (s.drop (i + pat.length)) rep h]

lemma jsReplaceFirst_eq_subst (s pat rep : String) (h : hasChar rep '$' = false) :
    jsReplaceFirst s pat rep = substFirstSpec s pat rep := by
  unfold jsReplaceFirst substFirstSpec
  rw [replaceFirstL_eq_subst pat.data rep.data s.data h]

lemma jsReplaceFirst_of_no_occ (s pat rep : String)
    (h : findOccL pat.data s.data = none) : jsReplaceFirst s pat rep = s := by
  unfold jsReplaceFirst
  rw [show replaceFirstL pat.data rep.data s.data = s.data by simp [replaceFirstL, h]]

lemma substFirstSpec_of_no_occ (s pat rep : String)
    (h : findOccL pat.data s.data = none) : substFirstSpec s pat rep = s := by
  unfold substFirstSpec
  rw [show substFirstSpecL pat.data rep.data s.data = s.data by simp [substFirstSpecL, h]]

lemma setPathParamsStr_eq_spec (ps : List (String × String)) :
    ∀ u : String, (∀ kv ∈ ps, hasChar kv.2 '$' = false) →
      setPathParamsStr ps u
        = ps.foldl (fun u kv => substFirstSpec u ("\x7b" ++ kv.1 ++ "\x7d") kv.2) u := by
  induction ps with
  | nil => intro u hps; rfl
  | cons kv rest ih =>
      intro u hps
      simp only [setPathParamsStr, List.foldl_cons] at *
      rw [jsReplaceFirst_eq_subst _ _ _ (hps kv (by simp))]
      exact ih _ (fun kv2 hm => hps kv2 (by simp [hm]))

lemma orO_none_right (a : Option String) : orO a none = a := by
  cases a <;> rfl

lemma orO_assoc (a b c : Option String) : orO (orO a b) c = orO a (orO b c) := by
  cases a <;> rfl

lemma lookup_cons_ne (k : String) (kv : String × String) (rest : List (String × String))
    (hk : ¬ k = kv.1) : List.lookup k (kv :: rest) = List.lookup k rest := by
  have hb : (k == kv.1) = false := beq_eq_false_iff_ne.mpr hk
  simp [List.lookup, hb]

lemma lookup_cons_self (k : String) (kv : String × String) (rest : List (String × String))
    (hk : k = kv.1) : List.lookup k (kv :: rest) = some kv.2 := by
  have hb : (k == kv.1) = true := beq_iff_eq.mpr hk
  simp [List.lookup, hb]

lemma lookup_append (k : String) (l1 l2 : List (String × String)) :
    List.lookup k (l1 ++ l2) = orO (List.lookup k l1) (List.lookup k l2) := by
  induction l1 with
  | nil => rfl
  | cons kv rest ih =>
      by_cases hk : k = kv.1
      · rw [List.cons_append, lookup_cons_self k kv _ hk, lookup_cons_self k kv _ hk]
        rfl
      · rw [List.cons_append, lookup_cons_ne k kv _ hk, lookup_cons_ne k kv _ hk]
        exact ih

lemma jsSet_of_not_has (l : List (String × String)) (k v : String)
    (h : jsHas l k = false) : jsSet l k v = l ++ [(k, v)] := by
  induction l with
  | nil => rfl
  | cons kv rest ih =>
      by_cases hk : k = kv.1
      · rw [jsHas, lookup_cons_self k kv _ hk] at h
        simp at h
      · rw [jsHas, lookup_cons_ne k kv _ hk] at h
        simp only [jsSet]
        rw [if_neg (fun hc => hk hc.symm)]
        simp only [List.cons_append, List.cons.injEq, true_and]
        exact ih h

lemma lookup_jsSet_self (l : List (String × String)) (k v : String) :
    List.lookup k (jsSet l k v) = some v := by
  induction l with
  | nil => exact lookup_cons_self k (k, v) [] rfl
  | cons kv rest ih =>
      by_cases hk : kv.1 = k
      · simp only [jsSet]
        rw [if_pos hk]
        exact lookup_cons_self k (k, v) rest rfl
      · simp only [jsSet]
        rw [if_neg hk]
        rw [lookup_cons_ne k kv _ (fun hc => hk hc.symm)]
        exact ih

lemma merge_fold_lookup (ds : List (String × String)) :
    ∀ (h : List (String × String)) (k : String),
      List.lookup k (ds.foldl (fun h kv => if jsHas h kv.1 then h else jsSet h kv.1 kv.2) h)
        = orO (List.lookup k h) (List.lookup k ds) := by
  induction ds with
  | nil =>
      intro h k
      simp only [List.foldl_nil, List.lookup]
      exact (orO_none_right _).symm
  | cons d rest ih =>
      intro h k
      simp only [List.foldl_cons]
      by_cases hd : jsHas h d.1
      · rw [if_pos hd, ih]
        by_cases hk : k = d.1
        · subst hk
          obtain ⟨v, hv⟩ :=
            Option.isSome_iff_exists.mp (show (List.lookup d.1 h).isSome = true from hd)
          rw [hv, lookup_cons_self d.1 d rest rfl]
          rfl
        · rw [lookup_cons_ne k d rest hk]
      · rw [if_neg hd, ih, jsSet_of_not_has h d.1 d.2 (by simpa using hd), lookup_append,
          orO_assoc]
        by_cases hk : k = d.1
        · have hnone : List.lookup k h = none := by
            rw [jsHas] at hd
            cases hh : List.lookup k h with
            | none => rfl
            | some w => rw [hk] at hh; rw [hh] at hd; simp at hd
          rw [hnone, lookup_cons_self k d rest hk,
            lookup_cons_self k (d.1, d.2) [] (by rw [hk])]
          rfl
        · rw [lookup_cons_ne k d rest hk, lookup_cons_ne k (d.1, d.2) [] hk]
          rfl

/-! ### URL-parsing lemmas -/

lemma any_takeWhile_eq_false (p : Char → Bool) (c : Char) (hc : p c = false) :
    ∀ l : List Char, ((l.takeWhile p).any (fun a => a == c)) = false := by
  intro l
  induction l with
  | nil => rfl
  | cons x xs ih =>
      cases hp : p x with
      | false => simp [List.takeWhile, hp]
      | true =>
          have hxc : (x == c) = false := by
            by_cases hxc2 : x = c
            · rw [hxc2] at hp; rw [hp] at hc; cases hc
            · exact beq_eq_false_iff_ne.mpr hxc2
          simp [List.takeWhile, hp, hxc, ih]

lemma mkPathname_no_query (l : List Char) (p : String)
    (h : mkPathname l = some p) : hasChar p '?' = false := by
  unfold mkPathname at h
  by_cases he : (l.takeWhile notPathEnd).isEmpty
  · rw [if_pos he] at h
    cases h
  · rw [if_neg he] at h
    have hp : p = String.mk (l.takeWhile notPathEnd) := (Option.some_inj.mp h).symm
    rw [hp]
    exact any_takeWhile_eq_false notPathEnd '?' (by rfl) l

lemma urlParse_pathname_no_query (s : String) (p : String)
    (h : (urlParse s).pathname = some p) : hasChar p '?' = false := by
  unfold urlParse urlParseL at h
  split at h
  · split at h
    · exact mkPathname_no_query _ _ h
    · exact mkPathname_no_query _ _ h
  · exact mkPathname_no_query _ _ h

lemma urlParse_no_scheme (s : String) (h : urlHasScheme s = false) :
    (urlParse s).protocol = none ∧ (urlParse s).host = none := by
  unfold urlHasScheme at h
  cases hs : splitSchemeL s.data with
  | none => constructor <;> simp [urlParse, urlParseL, hs]
  | some pr => rw [hs] at h; cases h

/-! ### Step-level computation lemmas -/

lemma setBaseUrl_url_base_empty (h : cfg.baseUrl = "") : (setBaseUrl cfg r).url = r.url := by
  simp [setBaseUrl, h]

lemma setBaseUrl_url_startsWith (h : jsStartsWith r.url "http" = true) :
    (setBaseUrl cfg r).url = r.url := by
  simp [setBaseUrl, h]

lemma setBaseUrl_url_prefixing (h1 : cfg.baseUrl ≠ "") (h2 : jsStartsWith r.url "http" = false) :
    (setBaseUrl cfg r).url = cfg.baseUrl ++ r.url := by
  simp [setBaseUrl, h1, h2]

lemma setBaseUrl_path_eq : (setBaseUrl cfg r).path = (urlParse (setBaseUrl cfg r).url).pathname :=
  rfl

lemma setBaseUrl_baseUrl_eq : (setBaseUrl cfg r).baseUrl
    = optToJsStr (urlParse (setBaseUrl cfg r).url).protocol ++ "//"
      ++ optToJsStr (urlParse (setBaseUrl cfg r).url).host :=
  rfl

lemma setPathParams_url_some (ps : List (String × String)) (h : r.pathParams = some ps) :
    (setPathParams r).url = setPathParamsStr ps r.url := by
  simp [setPathParams, h]

lemma setPathParams_url_none (h : r.pathParams = none) : (setPathParams r).url = r.url := by
  simp [setPathParams, h]

lemma setQueryParams_url_app (h : getPlainQuery r.queryParams ≠ "") :
    (setQueryParams r).url = r.url ++ "?" ++ getPlainQuery r.queryParams := by
  simp [setQueryParams, h]

lemma setQueryParams_url_id (h : getPlainQuery r.queryParams = "") :
    (setQueryParams r).url = r.url := by
  simp [setQueryParams, h]

lemma setBody_body_eq : (setBody r).body = (if truthy r.data then r.data else r.body) := by
  by_cases h1 : truthy r.data <;> simp [setBody, h1, apply_ite Request.body]

lemma setBody_data_eq : (setBody r).data =
    (if isNumOrBool (if truthy r.data then r.data else r.body) then
       JSVal.str (jsToString (if truthy r.data then r.data else r.body))
     else if truthy (if truthy r.data then r.data else r.body) then
       (if truthy r.data then r.data else r.body)
     else r.data) := by
  by_cases h1 : truthy r.data <;> by_cases h2 : truthy r.body <;>
    simp [setBody, h1, h2, apply_ite Request.data]

lemma jsOrNat_pos (n d : Nat) (h : n ≠ 0) : jsOrNat (some n) d = n := by
  simp [jsOrNat, h]

lemma jsOrNat_zero (d : Nat) : jsOrNat (some 0) d = d := rfl

lemma jsOrNat_none (d : Nat) : jsOrNat none d = d := rfl

/-! ### Assembly-level projection lemmas -/

lemma assemble_timeout : (assemble cfg r).timeout = some (jsOrNat r.timeout cfg.timeout) := by
  simp [assemble]

lemma assemble_url : (assemble cfg r).url
    = (setQueryParams (setPathParams (setBaseUrl cfg r))).url := by
  simp [assemble]

lemma assemble_path : (assemble cfg r).path = (setBaseUrl cfg r).path := by
  simp [assemble]

lemma assemble_baseUrl : (assemble cfg r).baseUrl = (setBaseUrl cfg r).baseUrl := by
  simp [assemble]

lemma assemble_body : (assemble cfg r).body = (if truthy r.data then r.data else r.body) := by
  have hb := setBody_body_eq (setHeaders cfg (setQueryParams (setPathParams (setBaseUrl cfg r))))
  simp only [setHeaders_data, setQueryParams_data, setPathParams_data, setBaseUrl_data,
    setHeaders_body, setQueryParams_body, setPathParams_body, setBaseUrl_body] at hb
  simp [assemble, hb]

lemma assemble_data (hm : r.multiPartFormData = none) : (assemble cfg r).data =
    (if isNumOrBool (if truthy r.data then r.data else r.body) then
       JSVal.str (jsToString (if truthy r.data then r.data else r.body))
     else if truthy (if truthy r.data then r.data else r.body) then
       (if truthy r.data then r.data else r.body)
     else r.data) := by
  have h5 : (setBody (setHeaders cfg (setQueryParams (setPathParams
      (setBaseUrl cfg r))))).multiPartFormData = none := by
    simp [hm]
  have hd := setBody_data_eq (setHeaders cfg (setQueryParams (setPathParams (setBaseUrl cfg r))))
  simp only [setHeaders_data, setQueryParams_data, setPathParams_data, setBaseUrl_data,
    setHeaders_body, setQueryParams_body, setPathParams_body, setBaseUrl_body] at hd
  simp [assemble, setMPFD_of_none _ h5, hd]

/-! ### Claim theorems -/

/-- C1 (counterexample): the claim says a timeout explicitly set to 0 is
kept, but `request.timeout || config.request.timeout` treats 0 as falsy:
a request with timeout 0 comes out of assembly with the process-wide
default 3000 instead of 0. -/
theorem timeout_zero_overwritten_cex :
    ({ url := "/x", timeout := some 0 : Request }).timeout = some 0
    ∧ (assemble defaultConfig { url := "/x", timeout := some 0 }).timeout = some 3000
    ∧ (3000 : Nat) ≠ 0 :=
  ⟨rfl, rfl, by decide⟩

/-- C1 (amended): the process-wide default timeout is applied exactly
when the spec's timeout is falsy, i.e. unset or explicitly 0; an
explicitly set non-zero timeout is kept. -/
theorem timeout_default_amended (cfg : Config) (r : Request) :
    (∀ n : Nat, r.timeout = some n → n ≠ 0 → (assemble cfg r).timeout = some n)
    ∧ ((r.timeout = none ∨ r.timeout = some 0) → (assemble cfg r).timeout = some cfg.timeout) := by
  constructor
  · intro n hn hnz
    rw [assemble_timeout, hn, jsOrNat_pos n cfg.timeout hnz]
  · intro hz
    rcases hz with hz | hz
    · rw [assemble_timeout, hz, jsOrNat_none]
    · rw [assemble_timeout, hz, jsOrNat_zero]

/-- C1 witness: a request with timeout 250 keeps it through assembly. -/
theorem timeout_default_amended_witness :
    (assemble defaultConfig { url := "/x", timeout := some 250 }).timeout = some 250 :=
  (timeout_default_amended defaultConfig { url := "/x", timeout := some 250 }).1 250 rfl
    (by decide)

/-- C2 (counterexample): a path-parameter value containing the
`String.prototype.replace` escape sequence `$&` is not substituted
literally: the code expands `$&` to the matched `\x7bid\x7d` token, so the
URL comes out of assembly unchanged rather than containing the
parameter's value, refuting the claim that every token is replaced
with the corresponding path-parameter value. -/
theorem pathParams_dollar_cex :
    (assemble defaultConfig
      { url := "/u/\x7bid\x7d", pathParams := some [("id", "$&")] }).url = "/u/\x7bid\x7d"
    ∧ ("/u/\x7bid\x7d" : String) ≠ "/u/$&" :=
  ⟨rfl, by decide⟩

/-- C2 (amended): for declared path parameters whose values contain no
`$` character, substitution replaces, for each parameter in
declaration order, the first occurrence of the `\x7bname\x7d` token in the
URL (first match wins when the token repeats) with the value: the
assembled URL equals the fold of the spec-worded first-match splice
`substFirstSpec`; a declared parameter whose token does not occur
leaves the URL unchanged with no error (a no-occurrence pattern is a
no-op for `jsReplaceFirst`, for any value). Values containing `$` go
through `String.prototype.replace`'s escape expansion instead. -/
theorem pathParams_subst_first_match (cfg : Config) (r : Request) (ps : List (String × String))
    (hb : cfg.baseUrl = "") (hq : r.queryParams = none) (hp : r.pathParams = some ps)
    (hd : ∀ kv ∈ ps, hasChar kv.2 '$' = false) :
    (assemble cfg r).url
      = ps.foldl (fun u kv => substFirstSpec u ("\x7b" ++ kv.1 ++ "\x7d") kv.2) r.url
    ∧ ∀ (u pat rep : String), findOccL pat.data u.data = none → jsReplaceFirst u pat rep = u := by
  constructor
  · rw [assemble_url]
    have h1 : (setBaseUrl cfg r).url = r.url := setBaseUrl_url_base_empty cfg r hb
    have hpp : (setBaseUrl cfg r).pathParams = some ps := by
      rw [setBaseUrl_pathParams, hp]
    have h2 : (setPathParams (setBaseUrl cfg r)).url = setPathParamsStr ps r.url := by
      rw [setPathParams_url_some _ ps hpp, h1]
    have hqq : (setPathParams (setBaseUrl cfg r)).queryParams = none := by
      simp [hq]
    have h3 : (setQueryParams (setPathParams (setBaseUrl cfg r))).url
        = setPathParamsStr ps r.url := by
      rw [setQueryParams_url_id _ (by rw [hqq]; rfl), h2]
    rw [h3, setPathParamsStr_eq_spec ps r.url hd]
  · intro u pat rep hocc
    exact jsReplaceFirst_of_no_occ u pat rep hocc

/-- C2 witness: with `$`-free pathParams `id=5` (token occurring twice)
and `missing=9` (no token), only the first `\x7bid\x7d` is replaced and the
missing parameter is silently ignored. -/
theorem pathParams_subst_first_match_witness :
    (assemble defaultConfig
      { url := "/u/\x7bid\x7d/\x7bid\x7d",
        pathParams := some [("id", "5"), ("missing", "9")] }).url = "/u/5/\x7bid\x7d" :=
  ((pathParams_subst_first_match defaultConfig
      { url := "/u/\x7bid\x7d/\x7bid\x7d", pathParams := some [("id", "5"), ("missing", "9")] }
      [("id", "5"), ("missing", "9")] rfl rfl rfl (by decide)).1).trans (by decide)

/-- C3 (counterexample): body normalization does not keep `data` and
`body` holding the same value, and "last one set wins" is not what the
code implements: (i) a request whose body is the number 5 ends with
`body = 5` but `data = "5"`; (ii) a request with the falsy pair
`data = 0`, `body = ""` is left untouched, so the fields stay
different even though the resulting body is not a number or boolean;
(iii) a request with both fields set to different truthy strings ends
with both fields holding `data`'s value — `data` wins irrespective of
setting order. -/
theorem body_data_desync_cex :
    ((assemble defaultConfig { url := "/x", body := JSVal.num 5 }).body = JSVal.num 5
      ∧ (assemble defaultConfig { url := "/x", body := JSVal.num 5 }).data = JSVal.str "5"
      ∧ (assemble defaultConfig { url := "/x", body := JSVal.num 5 }).data
          ≠ (assemble defaultConfig { url := "/x", body := JSVal.num 5 }).body)
    ∧ ((assemble defaultConfig
          { url := "/x", data := JSVal.num 0, body := JSVal.str "" }).data = JSVal.num 0
      ∧ (assemble defaultConfig
          { url := "/x", data := JSVal.num 0, body := JSVal.str "" }).body = JSVal.str ""
      ∧ isNumOrBool (assemble defaultConfig
          { url := "/x", data := JSVal.num 0, body := JSVal.str "" }).body = false
      ∧ JSVal.num 0 ≠ JSVal.str "")
    ∧ ((assemble defaultConfig
          { url := "/x", data := JSVal.str "A", body := JSVal.str "B" }).data = JSVal.str "A"
      ∧ (assemble defaultConfig
          { url := "/x", data := JSVal.str "A", body := JSVal.str "B" }).body
          = JSVal.str "A") := by
  refine ⟨⟨rfl, rfl, ?_⟩, ⟨rfl, rfl, rfl, ?_⟩, ⟨rfl, rfl⟩⟩
  · intro h
    rw [show (assemble defaultConfig { url := "/x", body := JSVal.num 5 }).data
          = JSVal.str "5" from rfl,
      show (assemble defaultConfig { url := "/x", body := JSVal.num 5 }).body
          = JSVal.num 5 from rfl] at h
    exact JSVal.noConfusion h
  · intro h
    exact JSVal.noConfusion h

/-- C3 (amended): after body normalization, when at least one of
`data`/`body` was truthy, the two fields hold the same value whenever
the resulting body is not a bare number/boolean (with a truthy `data`
taking precedence over `body` when both were set); when the body is a
number or boolean, `data` holds its stringified form while `body`
keeps the raw scalar; and when both fields are falsy and the body is
not a number or boolean, nothing is copied, so both fields keep their
original (possibly different) values. -/
theorem body_normalization_amended (cfg : Config) (r : Request)
    (hm : r.multiPartFormData = none) :
    ((truthy r.data = true ∨ truthy r.body = true) →
       isNumOrBool (assemble cfg r).body = false →
       (assemble cfg r).data = (assemble cfg r).body)
    ∧ (∀ n : Int, (assemble cfg r).body = JSVal.num n →
       (assemble cfg r).data = JSVal.str (toString n))
    ∧ (∀ b : Bool, (assemble cfg r).body = JSVal.bool b →
       (assemble cfg r).data = JSVal.str (cond b "true" "false"))
    ∧ (truthy r.data = true → (assemble cfg r).body = r.data)
    ∧ ((truthy r.data = false ∧ truthy r.body = false ∧ isNumOrBool r.body = false) →
       (assemble cfg r).data = r.data ∧ (assemble cfg r).body = r.body) := by
  have hb := assemble_body cfg r
  have hd := assemble_data cfg r hm
  refine ⟨?_, ?_, ?_, ?_, ?_⟩
  · intro htr hnb
    rw [hb] at hnb
    rw [hd, hb, if_neg (by simp [hnb])]
    by_cases h1 : truthy r.data
    · simp [h1]
    · rcases htr with h | h
      · exact absurd h h1
      · simp [h1, h]
  · intro n hbn
    rw [hb] at hbn
    rw [hd, hbn]
    simp [isNumOrBool, jsToString]
  · intro b hbn
    rw [hb] at hbn
    rw [hd, hbn]
    simp [isNumOrBool, jsToString]
  · intro h1
    rw [hb, if_pos h1]
  · rintro ⟨h1, h2, h3⟩
    rw [hd, hb]
    simp [h1, h2, h3]

/-- C3 witness: a truthy string payload ends with `data` and `body`
holding the same value. -/
theorem body_normalization_amended_witness :
    (assemble defaultConfig { url := "/x", data := JSVal.str "hello" }).data
      = (assemble defaultConfig { url := "/x", data := JSVal.str "hello" }).body :=
  (body_normalization_amended defaultConfig { url := "/x", data := JSVal.str "hello" } rfl).1
    (Or.inl (by decide)) (by decide)

/-- C4 (counterexample): on the URL "foo/bar", which has no
protocol/host, assembly does not fail at all: it completes normally,
producing a canonical request whose `baseUrl` is the degenerate string
"null//null" and whose timeout default was applied — there is no
`InvalidUrlError` anywhere in the code. -/
theorem assembly_no_invalid_url_error_cex :
    (urlParse "foo/bar").protocol = none
    ∧ (urlParse "foo/bar").host = none
    ∧ (assemble defaultConfig { url := "foo/bar" }).baseUrl = "null//null"
    ∧ (assemble defaultConfig { url := "foo/bar" }).url = "foo/bar"
    ∧ (assemble defaultConfig { url := "foo/bar" }).timeout = some 3000 :=
  ⟨rfl, rfl, rfl, rfl, rfl⟩

/-- C4 (amended): Request Assembly is total and never raises an
`InvalidUrlError`; when the (unprefixed) URL carries no scheme, the
canonical request's `baseUrl` is the JavaScript rendering
"null//null" of the parser's null protocol and host. -/
theorem assembly_total_null_baseUrl (cfg : Config) (r : Request)
    (hb : cfg.baseUrl = "") (h : urlHasScheme r.url = false) :
    (assemble cfg r).baseUrl = "null//null" := by
  rw [assemble_baseUrl, setBaseUrl_baseUrl_eq, setBaseUrl_url_base_empty cfg r hb]
  obtain ⟨hp, hh⟩ := urlParse_no_scheme r.url h
  rw [hp, hh]
  rfl

/-- C4 witness: a relative URL yields baseUrl "null//null". -/
theorem assembly_total_null_baseUrl_witness :
    (assemble defaultConfig { url := "relative/path" }).baseUrl = "null//null" :=
  assembly_total_null_baseUrl defaultConfig { url := "relative/path" } rfl (by decide)

/-- C5: the header merge resolves every key with spec-over-default
precedence under case-sensitive key equality: for any key, the merged
lookup is the spec's own value when the spec declares the key, and the
process default's value only otherwise — so a default is added only
when its key is not already present and a spec-declared header is
never overwritten by a default. -/
theorem header_merge_precedence (cfg : Config) (r : Request) (k : String) :
    List.lookup k (((setHeaders cfg r).headers).getD [])
      = orO (List.lookup k (r.headers.getD [])) (List.lookup k cfg.headers) := by
  by_cases hc : cfg.headers.length > 0
  · cases hr : r.headers with
    | none => simp [setHeaders, hc, hr, merge_fold_lookup]
    | some hs => simp [setHeaders, hc, hr, merge_fold_lookup]
  · have hnil : cfg.headers = [] := by
      cases hcfg : cfg.headers with
      | nil => rfl
      | cons a l => rw [hcfg] at hc; simp at hc
    simp only [setHeaders, hc, if_neg]
    rw [hnil]
    exact (orO_none_right _).symm

/-- C6 (counterexample): with a configured base URL, the relative URL
"httpbin/get" — which is not an absolute URL — is left unprefixed,
because the code tests `startsWith('http')` rather than absoluteness;
the claim would require the base URL to be prepended. -/
theorem base_url_http_relative_cex :
    isAbsoluteUrl "httpbin/get" = false
    ∧ "http://localhost:3000" ≠ ""
    ∧ (assemble { defaultConfig with baseUrl := "http://localhost:3000" }
        { url := "httpbin/get" }).url = "httpbin/get"
    ∧ "httpbin/get" ≠ "http://localhost:3000" ++ "httpbin/get" :=
  ⟨by decide, by decide, rfl, by decide⟩

/-- C6 (amended): base-URL prefixing happens exactly when a base URL is
configured and the spec's URL does not start with the four characters
"http"; in particular an absolute `http(s)://` URL is always left
unchanged, but so is any relative URL that merely starts with "http". -/
theorem base_url_prefix_amended (cfg : Config) (r : Request) :
    (cfg.baseUrl ≠ "" → jsStartsWith r.url "http" = false →
       (setBaseUrl cfg r).url = cfg.baseUrl ++ r.url)
    ∧ (jsStartsWith r.url "http" = true → (setBaseUrl cfg r).url = r.url)
    ∧ (cfg.baseUrl = "" → (setBaseUrl cfg r).url = r.url)
    ∧ (isAbsoluteUrl r.url = true → (setBaseUrl cfg r).url = r.url) := by
  refine ⟨fun h1 h2 => setBaseUrl_url_prefixing cfg r h1 h2,
    fun h => setBaseUrl_url_startsWith cfg r h,
    fun h => setBaseUrl_url_base_empty cfg r h,
    fun h => ?_⟩
  apply setBaseUrl_url_startsWith
  unfold isAbsoluteUrl at h
  unfold jsStartsWith at h ⊢
  rcases Bool.or_eq_true_iff.mp h with h7 | h8
  · rw [List.isPrefixOf_iff_prefix] at h7 ⊢
    exact (List.isPrefixOf_iff_prefix.mp (by decide : List.isPrefixOf
      ("http" : String).data ("http://" : String).data = true)).trans h7
  · rw [List.isPrefixOf_iff_prefix] at h8 ⊢
    exact (List.isPrefixOf_iff_prefix.mp (by decide : List.isPrefixOf
      ("http" : String).data ("https://" : String).data = true)).trans h8

/-- C6 witness: a relative path is prefixed with the configured base
URL. -/
theorem base_url_prefix_amended_witness :
    (setBaseUrl { defaultConfig with baseUrl := "http://h" } { url := "/p" }).url
      = "http://h" ++ "/p" :=
  (base_url_prefix_amended { defaultConfig with baseUrl := "http://h" } { url := "/p" }).1
    (by decide) (by decide)

/-- C7: when multipart form data was declared, assembly sets `data` to
the serialized binary payload, installs the multipart-derived
`content-type` boundary header overwriting any value set so far, and
removes the builder-internal multipart state from the canonical
request. -/
theorem multipart_materialization (cfg : Config) (r : Request) (m : FormDataModel)
    (hm : r.multiPartFormData = some m) :
    (assemble cfg r).data = JSVal.buf m.buffer
    ∧ List.lookup "content-type" (((assemble cfg r).headers).getD [])
        = some ("multipart/form-data; boundary=" ++ m.boundary)
    ∧ (assemble cfg r).multiPartFormData = none := by
  have key : ∀ r5 : Request, r5.multiPartFormData = some m →
      (setMultiPartFormData r5).data = JSVal.buf m.buffer
      ∧ List.lookup "content-type" (((setMultiPartFormData r5).headers).getD [])
          = some ("multipart/form-data; boundary=" ++ m.boundary)
      ∧ (setMultiPartFormData r5).multiPartFormData = none := by
    intro r5 h5
    refine ⟨?_, ?_, ?_⟩
    · simp [setMultiPartFormData, h5, getBuffer]
    · cases hrh : r5.headers with
      | none =>
          simp only [setMultiPartFormData, h5, hrh, getHeaders, Option.getD_some]
          exact lookup_cons_self "content-type"
            ("content-type", "multipart/form-data; boundary=" ++ m.boundary) [] rfl
      | some h0 =>
          simp only [setMultiPartFormData, h5, hrh, getHeaders, List.foldl_cons,
            List.foldl_nil, Option.getD_some]
          exact lookup_jsSet_self h0 "content-type" _
    · simp [setMultiPartFormData, h5]
  have h5 : (setBody (setHeaders cfg (setQueryParams (setPathParams
      (setBaseUrl cfg r))))).multiPartFormData = some m := by
    simp [hm]
  obtain ⟨k1, k2, k3⟩ := key _ h5
  refine ⟨?_, ?_, ?_⟩
  · rw [show (assemble cfg r).data = (setMultiPartFormData (setBody (setHeaders cfg
      (setQueryParams (setPathParams (setBaseUrl cfg r)))))).data from by simp [assemble]]
    exact k1
  · rw [show (assemble cfg r).headers = (setMultiPartFormData (setBody (setHeaders cfg
      (setQueryParams (setPathParams (setBaseUrl cfg r)))))).headers from by simp [assemble]]
    exact k2
  · rw [show (assemble cfg r).multiPartFormData = (setMultiPartFormData (setBody (setHeaders cfg
      (setQueryParams (setPathParams (setBaseUrl cfg r)))))).multiPartFormData from by
        simp [assemble]]
    exact k3

/-- C7 witness: a request with a preexisting content-type header and a
declared multipart payload. -/
theorem multipart_materialization_witness :
    (assemble defaultConfig
      { url := "/x", headers := some [("content-type", "text/plain")],
        multiPartFormData := some { buffer := [1, 2], boundary := "BB" } }).data
      = JSVal.buf [1, 2]
    ∧ List.lookup "content-type" (((assemble defaultConfig
        { url := "/x", headers := some [("content-type", "text/plain")],
          multiPartFormData := some { buffer := [1, 2], boundary := "BB" } }).headers).getD [])
        = some ("multipart/form-data; boundary=" ++ "BB")
    ∧ (assemble defaultConfig
        { url := "/x", headers := some [("content-type", "text/plain")],
          multiPartFormData := some { buffer := [1, 2], boundary := "BB" } }).multiPartFormData
        = none :=
  multipart_materialization defaultConfig
    { url := "/x", headers := some [("content-type", "text/plain")],
      multiPartFormData := some { buffer := [1, 2], boundary := "BB" } }
    { buffer := [1, 2], boundary := "BB" } rfl

/-- C8: processing a request never mutates the process-wide
configuration state (base URL, default headers, default timeout,
default follow-redirects): the configuration component of the
process-wide state is returned unchanged by `process`, and only the
per-request object and the (modelled) template store are rewritten. -/
theorem process_preserves_config (s : SysState) : (process s).config = s.config := rfl

/-- C9: the canonical request's `path` and `baseUrl` are derived from
the URL as it stands before path-parameter substitution and
query-string appending — they are insensitive to the declared
pathParams/queryParams — and a parsed pathname can never contain a
`?`, hence never includes the serialized query string. -/
theorem path_baseUrl_pre_substitution (cfg : Config) (r : Request) :
    ((assemble cfg r).path
      = (assemble cfg { r with pathParams := none, queryParams := none }).path)
    ∧ ((assemble cfg r).baseUrl
      = (assemble cfg { r with pathParams := none, queryParams := none }).baseUrl)
    ∧ (∀ p : String, (assemble cfg r).path = some p → hasChar p '?' = false) := by
  refine ⟨?_, ?_, ?_⟩
  · rw [assemble_path, assemble_path]
    rfl
  · rw [assemble_baseUrl, assemble_baseUrl]
    rfl
  · intro p hp
    rw [assemble_path, setBaseUrl_path_eq] at hp
    exact urlParse_pathname_no_query _ p hp

/-- C9 witness: with pathParams declared, the recorded `path` still
contains the unsubstituted token and no query string. -/
theorem path_baseUrl_pre_substitution_witness :
    (assemble defaultConfig
      { url := "/users/\x7bid\x7d", pathParams := some [("id", "5")],
        queryParams := some [("q", "1")] }).path = some "/users/\x7bid\x7d"
    ∧ hasChar "/users/\x7bid\x7d" '?' = false := by
  have h1 : (assemble defaultConfig
      { url := "/users/\x7bid\x7d", pathParams := some [("id", "5")],
        queryParams := some [("q", "1")] }).path = some "/users/\x7bid\x7d" :=
    ((path_baseUrl_pre_substitution defaultConfig
      { url := "/users/\x7bid\x7d", pathParams := some [("id", "5")],
        queryParams := some [("q", "1")] }).1).trans (by decide)
  exact ⟨h1, (path_baseUrl_pre_substitution defaultConfig
    { url := "/users/\x7bid\x7d", pathParams := some [("id", "5")],
      queryParams := some [("q", "1")] }).2.2 _ h1⟩

/-- C10: when the accumulated query mapping serializes to a non-empty
string, it is appended to the URL joined by `?` unconditionally (even
when the URL already contains a `?`), and an empty serialization
leaves the URL unchanged. -/
theorem query_append_unconditional (cfg : Config) (r : Request)
    (hb : cfg.baseUrl = "") (hp : r.pathParams = none) :
    (getPlainQuery r.queryParams ≠ "" →
       (assemble cfg r).url = r.url ++ "?" ++ getPlainQuery r.queryParams)
    ∧ (getPlainQuery r.queryParams = "" → (assemble cfg r).url = r.url) := by
  have hu : (setPathParams (setBaseUrl cfg r)).url = r.url := by
    rw [setPathParams_url_none _ (by simp [hp]), setBaseUrl_url_base_empty cfg r hb]
  have hq : (setPathParams (setBaseUrl cfg r)).queryParams = r.queryParams := by
    simp
  constructor
  · intro hne
    rw [assemble_url, setQueryParams_url_app _ (by rw [hq]; exact hne), hq, hu]
  · intro he
    rw [assemble_url, setQueryParams_url_id _ (by rw [hq]; exact he), hu]

/-- C10 witness: the URL "/b?x=1" already contains a `?`, and the
serialized query "y=2" is still appended with a second `?`. -/
theorem query_append_unconditional_witness :
    hasChar "/b?x=1" '?' = true
    ∧ (assemble defaultConfig { url := "/b?x=1", queryParams := some [("y", "2")] }).url
        = "/b?x=1?y=2" := by
  refine ⟨by decide, ?_⟩
  exact ((query_append_unconditional defaultConfig
    { url := "/b?x=1", queryParams := some [("y", "2")] } rfl rfl).1 (by decide)).trans
    (by decide)

end Pactum
